import Mathlib

/-!
Verification of the ProductionUtils date-inference / overlap-filter core and
of the useSearch composable of the `manage` repository.

Modelling conventions used throughout this development:

* A JavaScript `Date` is modelled at day granularity as an `Int` counting
  calendar days since 1970-01-01.  Every date the source manipulates is
  produced either by the external `parseDate` collaborator or by adding whole
  multiples of 86400000 ms to such a date, so times of day never influence
  the logic: `getTime()` comparisons become `Int` comparisons and
  `± n * 86400000` becomes `± n`.
* `getFullYear`, `getMonth`, `getDate` and `setFullYear` are implemented by
  converting between epoch days and the proleptic Gregorian calendar.
  `setFullYear` keeps month and day-of-month and lets an overflowing
  29 February roll over into 1 March, exactly as JavaScript normalises dates.
* The external `parseDate(value, forceYear, year)` collaborator (every call
  site in the source passes `forceYear = true`) is a parameter of type
  `ParseDate`; theorems quantify over it.  It is assumed to return either a
  valid date or `null` (`none`).
* A row's `Year` spreadsheet field is modelled as `Option Int`: `none` stands
  for a missing, empty or non-integer value, `some y` for an integer value.
  All coercions the source applies to it (`parseInt`, `Number`, truthiness,
  `!==` / `!=` against `getFullYear()`) agree on values of that shape.
-/

namespace Manage

/-- Calendar date: proleptic Gregorian year, month (1-12) and day (1-31). -/
structure Civil where
  year : Int
  month : Nat
  day : Nat
deriving DecidableEq, Repr

/-- Days since 1970-01-01 of a civil date (Howard Hinnant's algorithm, ported
with floor division so that it is valid for all years).  Passing a `day`
beyond the length of the month yields the correspondingly later date, which
is exactly JavaScript's date normalisation. -/
def daysFromCivil (y : Int) (m d : Nat) : Int :=
  let yAdj : Int := if m ≤ 2 then y - 1 else y
  let era : Int := Int.fdiv yAdj 400
  let yoe : Int := yAdj - era * 400
  let mp : Int := (Int.ofNat m + 9) % 12
  let doy : Int := Int.fdiv (153 * mp + 2) 5 + Int.ofNat d - 1
  let doe : Int := yoe * 365 + Int.fdiv yoe 4 - Int.fdiv yoe 100 + doy
  era * 146097 + doe - 719468

/-- Inverse of `daysFromCivil`: the civil date of a count of days since
1970-01-01. -/
def civilFromDays (z : Int) : Civil :=
  let z2 : Int := z + 719468
  let era : Int := Int.fdiv z2 146097
  let doe : Int := z2 - era * 146097
  let yoe : Int :=
    Int.fdiv (doe - Int.fdiv doe 1460 + Int.fdiv doe 36524 - Int.fdiv doe 146096) 365
  let y : Int := yoe + era * 400
  let doy : Int := doe - (365 * yoe + Int.fdiv yoe 4 - Int.fdiv yoe 100)
  let mp : Int := Int.fdiv (5 * doy + 2) 153
  let d : Int := doy - Int.fdiv (153 * mp + 2) 5 + 1
  let m : Int := if mp < 10 then mp + 3 else mp - 9
  ⟨(if m ≤ 2 then y + 1 else y), m.toNat, d.toNat⟩

/-- JavaScript `Date`, at day granularity: days since 1970-01-01. -/
abbrev JDate := Int

/-- JavaScript `Date.prototype.getFullYear`. -/
def getFullYear (d : JDate) : Int := (civilFromDays d).year

/-- JavaScript `Date.prototype.getMonth() + 1` (1-based month). -/
def getMonth1 (d : JDate) : Nat := (civilFromDays d).month

/-- JavaScript `Date.prototype.getDate` (day of month). -/
def getDayOfMonth (d : JDate) : Nat := (civilFromDays d).day

/-- JavaScript `Date.prototype.setFullYear`: keep month and day-of-month,
replace the year; an out-of-range 29 February rolls over into 1 March. -/
def setFullYear (d : JDate) (y : Int) : JDate :=
  daysFromCivil y (civilFromDays d).month (civilFromDays d).day

example : civilFromDays 0 = ⟨1970, 1, 1⟩ := by decide
example : daysFromCivil 1970 1 1 = 0 := by decide
example : civilFromDays (daysFromCivil 2024 2 29) = ⟨2024, 2, 29⟩ := by decide
example : setFullYear (daysFromCivil 2024 2 29) 2023 = daysFromCivil 2023 3 1 := by decide
example : setFullYear (daysFromCivil 2026 1 7) 2025 = daysFromCivil 2025 1 7 := by decide

/-- A ProductionSchedule row, restricted to the columns the core logic reads.
`Ship`, `S. Start`, `S. End` and `Expected Return Date` are kept as the raw
spreadsheet strings (`none` = absent) because they only ever flow into the
external `parseDate`; `Year` is modelled as `Option Int` (see the header
comment). -/
structure Row where
  Ship : Option String
  SStart : Option String
  SEnd : Option String
  ExpectedReturnDate : Option String
  Year : Option Int
  Show : Option String
  Client : Option String
deriving DecidableEq

/-- Outcome table of the external `parseDate(value, true, year)` collaborator:
given the raw field value and the row's year it returns a date or `null`. -/
abbrev ParseDate := Option String → Option Int → Option JDate

/-- Model of `_calculateShipDate(row)` (src/unnamed/part_000, lines 348-396).

On the `row.Year = none` branches: in the source the strict comparison
`ship.getFullYear() !== year` is true (a number is never strictly equal to
`undefined`), `setFullYear(Number(undefined))` turns the candidate into an
invalid date, and an invalid date is `<` nothing, so the cross-year value
`ship` is kept — hence `none => ship` below.  On the `some y` branches the
source enters the adjustment block even when `getFullYear ship = y` (a number
is never strictly equal to a year string), but then the adjusted candidate
equals `ship` and is `< sStart`, so `ship` is unchanged; guarding the block
with `getFullYear ship ≠ y` is therefore extensionally faithful. -/
def _calculateShipDate (pd : ParseDate) (row : Row) : Option JDate :=
  let year := row.Year
  match pd row.Ship year with
  | some ship => some ship
  | none =>
    match pd row.SStart year with
    | some sStart =>
      let ship := sStart - 14
      let ship :=
        match year with
        | some y =>
          if getFullYear ship ≠ y then
            let shipWithYearAdjusted := setFullYear ship y
            if shipWithYearAdjusted < sStart then shipWithYearAdjusted else ship
          else ship
        | none => ship
      some ship
    | none =>
      match pd row.SEnd year with
      | some sEnd =>
        let ship := sEnd - 21
        let ship :=
          match year with
          | some y =>
            if getFullYear ship ≠ y then
              let shipWithYearAdjusted := setFullYear ship y
              if shipWithYearAdjusted < sEnd then shipWithYearAdjusted else ship
            else ship
          | none => ship
        some ship
      | none => none

/-- Model of `_calculateReturnDate(row, shipDate)` (src/unnamed/part_000,
lines 406-437).

On the `row.Year = none` fallback branches the source computes
`ret.setFullYear(Number(undefined))`, producing an invalid date; an invalid
date fails every comparison and every date use downstream, so it is modelled
as `none` (unknown).  On the `some y` branches the loose comparison
`ret.getFullYear() != year` agrees with `≠` on integers. -/
def _calculateReturnDate (pd : ParseDate) (row : Row) (shipDate : Option JDate) :
    Option JDate :=
  let year := row.Year
  match pd row.ExpectedReturnDate year with
  | some ret => some ret
  | none =>
    match pd row.SEnd year with
    | some sEnd =>
      let ret := sEnd + 10
      match year with
      | some y => some (if getFullYear ret ≠ y then setFullYear ret y else ret)
      | none => none
    | none =>
      match pd row.SStart year with
      | some sStart =>
        let ret := sStart + 30
        match year with
        | some y => some (if getFullYear ret ≠ y then setFullYear ret y else ret)
        | none => none
      | none =>
        match shipDate with
        | some sd =>
          let ret := sd + 30
          match year with
          | some y => some (if getFullYear ret ≠ y then setFullYear ret y else ret)
          | none => none
        | none => none

/-- Claim-side (C1) conditional year correction, as the spec words it: the
declared year is forced onto the result only if the year-forced date is
strictly before the reference date, otherwise the cross-year value is kept. -/
def specYearCorrectShip (year : Option Int) (d ref : JDate) : JDate :=
  match year with
  | some y =>
    if getFullYear d ≠ y then
      (if setFullYear d y < ref then setFullYear d y else d)
    else d
  | none => d

/-- Claim-side (C1) ship-date inference, following the claim's words: the
parsed explicit `Ship` field if it parses; otherwise `S. Start` − 14 days
with the conditional year correction relative to the parsed `S. Start`;
otherwise `S. End` − 21 days with the same correction relative to the parsed
`S. End`; otherwise null. -/
def specShipDate (pd : ParseDate) (row : Row) : Option JDate :=
  match pd row.Ship row.Year with
  | some d => some d
  | none =>
    match pd row.SStart row.Year with
    | some s => some (specYearCorrectShip row.Year (s - 14) s)
    | none =>
      match pd row.SEnd row.Year with
      | some s => some (specYearCorrectShip row.Year (s - 21) s)
      | none => none

/-- Claim-side (C2) unconditional year force: if the date's year differs from
the declared year, the declared year is forced onto it (no ordering check). -/
def specForceYear (y : Int) (d : JDate) : JDate :=
  if getFullYear d ≠ y then setFullYear d y else d

/-- Claim-side (C2) return-date inference, following the claim's words: the
parsed explicit `Expected Return Date` if it parses; otherwise `S. End` + 10
days; otherwise `S. Start` + 30 days; otherwise the already-computed ship
date + 30 days; otherwise null — each fallback with the unconditional year
force. -/
def specReturnDate (pd : ParseDate) (row : Row) (shipDate : Option JDate) (y : Int) :
    Option JDate :=
  match pd row.ExpectedReturnDate row.Year with
  | some d => some d
  | none =>
    match pd row.SEnd row.Year with
    | some s => some (specForceYear y (s + 10))
    | none =>
      match pd row.SStart row.Year with
      | some s => some (specForceYear y (s + 30))
      | none =>
        match shipDate with
        | some s => some (specForceYear y (s + 30))
        | none => none

/-- C1: for every schedule row, the ship-date inference returns the parsed
explicit `Ship` field if it parses; otherwise `S. Start` − 14 days, where the
declared `Year` is forced onto a cross-year result only if the year-forced
date is strictly before the parsed `S. Start` (otherwise the cross-year value
is kept); otherwise `S. End` − 21 days with the same conditional correction
relative to the parsed `S. End`; otherwise null. -/
theorem shipDate_matches_claim (pd : ParseDate) (row : Row) :
    _calculateShipDate pd row = specShipDate pd row := by
  cases hS : pd row.Ship row.Year <;>
    cases h1 : pd row.SStart row.Year <;>
      cases h2 : pd row.SEnd row.Year <;>
        cases hy : row.Year <;>
          simp [_calculateShipDate, specShipDate, specYearCorrectShip, hS, h1, h2, hy]

/-- C2: for every schedule row with a declared integer `Year`, the
return-date inference returns the parsed explicit `Expected Return Date` if
it parses; otherwise `S. End` + 10 days; otherwise `S. Start` + 30 days;
otherwise the already-computed ship date + 30 days; otherwise null — and in
each fallback case a result whose year differs from the declared `Year` has
the declared year forced onto it unconditionally (no ordering check). -/
theorem returnDate_matches_claim (pd : ParseDate) (row : Row)
    (shipDate : Option JDate) (y : Int) (h : row.Year = some y) :
    _calculateReturnDate pd row shipDate = specReturnDate pd row shipDate y := by
  cases hE : pd row.ExpectedReturnDate row.Year <;>
    cases h2 : pd row.SEnd row.Year <;>
      cases h1 : pd row.SStart row.Year <;>
        cases shipDate <;>
          simp [_calculateReturnDate, specReturnDate, specForceYear, hE, h1, h2, h]

/-- Concrete `parseDate` table used by the C2 witness: only the `S. End`
field value "E" parses, to 2025-12-28. -/
def pdW2 : ParseDate := fun v _ =>
  if v = some "E" then some (daysFromCivil 2025 12 28) else none

/-- Concrete row used by the C2 witness. -/
def rowW2 : Row :=
  ⟨none, none, some "E", none, some 2025, none, none⟩

/-- Witness for C2: on a concrete row whose `S. End` is 2025-12-28 with
declared year 2025, the return date is `S. End` + 10 = 2026-01-07 with the
year forced back to 2025, i.e. 2025-01-07. -/
theorem returnDate_matches_claim_witness :
    _calculateReturnDate pdW2 rowW2 none = some (daysFromCivil 2025 1 7) :=
  (returnDate_matches_claim pdW2 rowW2 none 2025 rfl).trans (by decide)

/-! ### Search composable (useSearch, src/unnamed/part_000 lines 460-812)

Lean's built-in `String.trim`, `String.toLower`, `String.split` and
`String.replace` are byte-position loops that the kernel cannot evaluate, so
the string primitives the composable uses are modelled over `List Char`
(`String.data` / `String.mk` at the boundary).  JavaScript string indices are
UTF-16 units while `List Char` is code points; the two agree on all text the
dashboard handles. -/

/-- Model of `String.prototype.trim`: drop leading and trailing whitespace. -/
def trimChars (l : List Char) : List Char :=
  ((l.dropWhile Char.isWhitespace).reverse.dropWhile Char.isWhitespace).reverse

/-- Model of `String.prototype.trim` on `String`. -/
def strTrim (s : String) : String := String.mk (trimChars s.data)

/-- Model of `String.prototype.toLowerCase`. -/
def lowerStr (s : String) : String := String.mk (s.data.map Char.toLower)

/-- Model of `hay.includes(needle)`: contiguous-substring test. -/
def strIncludes (hay needle : String) : Bool := decide (needle.data <:+: hay.data)

/-- Splitter for `trim().split(/\s+/)`: cut at every whitespace character
(producing an empty piece for each extra whitespace in a run — the
`filter(word.length > 0)` of `splitSearchTerms` removes those, exactly as it
removes the empties of the source's regex split). -/
def splitWsGo (cur : List Char) : List Char → List (List Char)
  | [] => [cur.reverse]
  | c :: rest =>
    if c.isWhitespace then cur.reverse :: splitWsGo [] rest
    else splitWsGo (c :: cur) rest

/-- Model of `splitSearchTerms(searchTerm)` (lines 465-468): trim, split on
whitespace, keep the non-empty words.  A non-string or missing argument is
modelled by the empty string (both give `[]`). -/
def splitSearchTerms (searchTerm : String) : List String :=
  ((splitWsGo [] (trimChars searchTerm.data)).filter
      (fun w => w.length > 0)).map String.mk

/-- Model of the composable's `hasActiveSearch` computed value (lines
521-523): the search value is non-blank. -/
def hasActiveSearch (searchValue : String) : Bool :=
  (strTrim searchValue).data.length > 0

/-- Model of `row[column.key]` followed by `String(value)`: first matching
key wins, a missing key stringifies as "undefined".  Values are stored
already stringified. -/
def rowValue (row : List (String × String)) (key : String) : String :=
  match row.find? (fun kv => kv.1 == key) with
  | some kv => kv.2
  | none => "undefined"

/-- Model of `matchesRow(row, visibleColumns)` (lines 687-700); the word list
is derived from the search value exactly as the composable's `searchWords`
computed value does.  Note the source lowercases only the column value, not
the search word. -/
def matchesRow (searchValue : String) (row : Option (List (String × String)))
    (visibleColumns : List String) : Bool :=
  if !hasActiveSearch searchValue then true
  else
    match row with
    | none => false
    | some r =>
      (splitSearchTerms searchValue).all (fun word =>
        visibleColumns.any (fun column =>
          strIncludes (lowerStr (rowValue r column)) word))

/-- Claim-side (C5) row matching as the claim words it: every search word is
a case-insensitive substring of at least one listed column's stringified
value (AND across words, OR across columns per word). -/
def matchRowClaim (searchValue : String) (r : List (String × String))
    (visibleColumns : List String) : Bool :=
  (splitSearchTerms searchValue).all (fun word =>
    visibleColumns.any (fun column =>
      strIncludes (lowerStr (rowValue r column)) (lowerStr word)))

/-- C5 (code bug): `matchesRow` with zero search words returns true regardless
of row content, but word matching is not case-insensitive: the source
lowercases only the column value and not the search word
(`String(value).toLowerCase().includes(word)`), so the search word "Cat"
fails to match the column value "Cat" even though it is a case-insensitive
substring of it (the claim's predicate `matchRowClaim` accepts it).  The
sibling `hasMatch` helper and the highlighter lowercase or case-fold both
sides, so the missing `word.toLowerCase()` is a slip in the code. -/
theorem matchesRow_case_bug :
    (∀ (row : Option (List (String × String))) (cols : List String),
        matchesRow "" row cols = true) ∧
    matchesRow "Cat" (some [("title", "Cat")]) ["title"] = false ∧
    matchRowClaim "Cat" [("title", "Cat")] ["title"] = true := by
  refine ⟨fun row cols => ?_, by decide, by decide⟩
  have h : hasActiveSearch "" = false := by decide
  simp [matchesRow, h]

/-! ### Text highlighting (applyHighlighting, lines 531-594; escapeHtml,
lines 475-482) -/

/-- Global replacement of one character (every pattern in `escapeHtml` is a
single character, so `text.replace(/c/g, rep)` is exactly this). -/
def replaceChar (c : Char) (rep : List Char) : List Char → List Char
  | [] => []
  | x :: rest => (if x = c then rep else [x]) ++ replaceChar c rep rest

/-- Model of `escapeHtml(text)` (lines 475-482): the source's five chained
global replaces, applied in source order (`&` innermost/first). -/
def escapeHtml (text : String) : String :=
  String.mk
    (replaceChar (Char.ofNat 39) "&#039;".data
      (replaceChar (Char.ofNat 34) "&quot;".data
        (replaceChar (Char.ofNat 62) "&gt;".data
          (replaceChar (Char.ofNat 60) "&lt;".data
            (replaceChar (Char.ofNat 38) "&amp;".data text.data)))))

example : escapeHtml "a&b" = "a&amp;b" := by decide

/-- Case-insensitive match of word `w` at position `i` of `s` (the `i` flag
of the source's regex, modelled by lowercasing both sides). -/
def matchAtB (s w : List Char) (i : Nat) : Bool :=
  ((s.drop i).take w.length).map Char.toLower == w.map Char.toLower

/-- One word's `while ((match = regex.exec(stringValue)) !== null)` loop with
a global case-insensitive regex (lines 540-551): scan positions left to
right; after a match at `i` the regex's `lastIndex` jumps to the match end,
so the scan resumes at `i + w.length`.  `fuel` bounds the iteration count for
structural recursion; `greedyOccs` supplies `s.length + 1`, which is enough
because the position strictly increases each step. -/
def greedyScanF (s w : List Char) : Nat → Nat → List (Nat × Nat)
  | 0, _ => []
  | fuel + 1, i =>
    if s.length < i + w.length then []
    else if matchAtB s w i then
      (i, i + w.length) :: greedyScanF s w fuel (i + max 1 w.length)
    else greedyScanF s w fuel (i + 1)

/-- All match spans the source's regex loop produces for one word.  A
zero-length word would make the source's `exec` loop spin forever
(`lastIndex` never advances); every caller passes the non-empty words of
`splitSearchTerms`, and the model returns no matches for an empty word. -/
def greedyOccs (s w : List Char) : List (Nat × Nat) :=
  if w.isEmpty then [] else greedyScanF s w (s.length + 1) 0

/-- Model of `matches.sort((a, b) => a.start - b.start)` (line 554): a stable
sort by span start (insertion sort is stable, and JavaScript's sort is
specified stable). -/
def sortByStart (ms : List (Nat × Nat)) : List (Nat × Nat) :=
  List.insertionSort (fun a b => a.1 ≤ b.1) ms

/-- Model of one iteration of the source's merge loop (lines 557-571): the
accumulator is kept reversed so that mutating the last pushed span is a head
operation.  The span's `text` field is always the original text between
`start` and `end`, so spans are represented by their endpoints alone and the
renderer recomputes the text. -/
def mergeStep (acc : List (Nat × Nat)) (m : Nat × Nat) : List (Nat × Nat) :=
  match acc with
  | [] => [m]
  | last :: rest =>
    if m.1 ≤ last.2 then (last.1, max last.2 m.2) :: rest
    else m :: last :: rest

/-- Model of the source's merge of sorted spans (lines 557-571). -/
def mergeSpans (ms : List (Nat × Nat)) : List (Nat × Nat) :=
  (ms.foldl mergeStep []).reverse

/-- JavaScript `stringValue.substring(a, b)` for `a ≤ b`. -/
def sliceStr (s : List Char) (a b : Nat) : String :=
  String.mk ((s.drop a).take (b - a))

/-- Model of the output-building loop of `applyHighlighting` (lines 574-593):
escape the gap before each span, wrap the escaped span text in the
search-match marker, then escape the tail. -/
def renderHighlight (s : List Char) (lastIndex : Nat) : List (Nat × Nat) → String
  | [] => escapeHtml (sliceStr s lastIndex s.length)
  | m :: rest =>
    escapeHtml (sliceStr s lastIndex m.1) ++
      "<span class=\"search-match\">" ++ escapeHtml (sliceStr s m.1 m.2) ++
      "</span>" ++ renderHighlight s m.2 rest

/-- Model of `applyHighlighting(text, words)` (lines 531-594). -/
def applyHighlighting (text : String) (words : List String) : String :=
  if text.isEmpty || words.isEmpty then escapeHtml text
  else
    renderHighlight text.data 0
      (mergeSpans (sortByStart
        ((words.map (fun word => greedyOccs text.data word.data)).flatten)))

/-- Claim-side (C6): all case-insensitive occurrences of a word, including
self-overlapping ones — the claim's "finds all case-insensitive occurrences
of every word".  (Same empty-word guard as the model of the source.) -/
def allOccs (s w : List Char) : List (Nat × Nat) :=
  if w.isEmpty then []
  else
    (List.range (s.length + 1)).filterMap (fun i =>
      if decide (i + w.length ≤ s.length) && matchAtB s w i then
        some (i, i + w.length)
      else none)

/-- Claim-side (C6): first position at or after `i` where the word matches
case-insensitively. -/
def nextOcc (s w : List Char) (i : Nat) : Option Nat :=
  if h : s.length < i + w.length then none
  else if matchAtB s w i then some i
  else nextOcc s w (i + 1)
termination_by s.length + 1 - i
decreasing_by omega

/-- A position returned by `nextOcc` is at or after the start of the scan and
leaves room for the word. -/
theorem nextOcc_bounds (s w : List Char) :
    ∀ i j, nextOcc s w i = some j → i ≤ j ∧ j + w.length ≤ s.length := by
  suffices key : ∀ n i j, s.length + 1 - i ≤ n → nextOcc s w i = some j →
      i ≤ j ∧ j + w.length ≤ s.length by
    intro i j h
    exact key (s.length + 1 - i) i j le_rfl h
  intro n
  induction n with
  | zero =>
    intro i j hb h
    rw [nextOcc] at h
    rw [dif_pos (by omega)] at h
    exact absurd h (by simp)
  | succ n ih =>
    intro i j hb h
    rw [nextOcc] at h
    by_cases hg : s.length < i + w.length
    · rw [dif_pos hg] at h
      exact absurd h (by simp)
    · rw [dif_neg hg] at h
      by_cases hm : matchAtB s w i = true
      · rw [if_pos hm] at h
        cases h
        omega
      · rw [if_neg hm] at h
        have := ih (i + 1) j (by omega) h
        omega

/-- Claim-side (C6, amended): the left-to-right non-overlapping occurrence
scan, stated declaratively: take the first occurrence at or after `i`, then
resume after its end. -/
def specOccsFrom (s w : List Char) (i : Nat) : List (Nat × Nat) :=
  match _h : nextOcc s w i with
  | none => []
  | some j => (j, j + w.length) :: specOccsFrom s w (j + max 1 w.length)
termination_by s.length + 1 - i
decreasing_by
  have := nextOcc_bounds s w i j _h
  omega

theorem specOccsFrom_of_none (s w : List Char) (i : Nat)
    (h : nextOcc s w i = none) : specOccsFrom s w i = [] := by
  rw [specOccsFrom.eq_def]
  split
  · rfl
  · rename_i j heq
    rw [h] at heq
    exact Option.noConfusion heq

theorem specOccsFrom_of_some (s w : List Char) (i j : Nat)
    (h : nextOcc s w i = some j) :
    specOccsFrom s w i = (j, j + w.length) :: specOccsFrom s w (j + max 1 w.length) := by
  rw [specOccsFrom.eq_def]
  split
  · rename_i heq
    rw [h] at heq
    exact Option.noConfusion heq
  · rename_i j2 heq
    rw [h] at heq
    cases heq
    rfl

/-- The source's fuelled regex scan agrees with the declarative
first-occurrence-then-resume scan whenever it has enough fuel. -/
theorem greedyScanF_eq_specOccsFrom (s w : List Char) :
    ∀ fuel i, s.length + 1 - i ≤ fuel → greedyScanF s w fuel i = specOccsFrom s w i := by
  intro fuel
  induction fuel with
  | zero =>
    intro i hb
    have hn : nextOcc s w i = none := by
      rw [nextOcc]
      rw [dif_pos (by omega)]
    rw [specOccsFrom_of_none s w i hn]
    rfl
  | succ fuel ih =>
    intro i hb
    by_cases hg : s.length < i + w.length
    · have hn : nextOcc s w i = none := by
        rw [nextOcc]
        rw [dif_pos hg]
      rw [specOccsFrom_of_none s w i hn]
      simp [greedyScanF, hg]
    · by_cases hm : matchAtB s w i = true
      · have hn : nextOcc s w i = some i := by
          rw [nextOcc]
          rw [dif_neg hg, if_pos hm]
        rw [specOccsFrom_of_some s w i i hn]
        simp only [greedyScanF, if_neg hg, if_pos hm]
        rw [ih (i + max 1 w.length) (by omega)]
      · have hstep : nextOcc s w i = nextOcc s w (i + 1) := by
          rw [nextOcc]
          rw [dif_neg hg, if_neg hm]
        have hrec : specOccsFrom s w i = specOccsFrom s w (i + 1) := by
          cases hn : nextOcc s w (i + 1) with
          | none =>
            rw [specOccsFrom_of_none s w i (hstep.trans hn),
              specOccsFrom_of_none s w (i + 1) hn]
          | some j =>
            rw [specOccsFrom_of_some s w i j (hstep.trans hn),
              specOccsFrom_of_some s w (i + 1) j hn]
        rw [hrec]
        simp only [greedyScanF, if_neg hg, if_neg hm]
        exact ih (i + 1) (by omega)

/-- Claim-side (C6): merge a sorted span list, absorbing each next span that
starts at or before the end of the current one. -/
def mergeSpecGo (cur : Nat × Nat) : List (Nat × Nat) → List (Nat × Nat)
  | [] => [cur]
  | b :: rest =>
    if b.1 ≤ cur.2 then mergeSpecGo (cur.1, max cur.2 b.2) rest
    else cur :: mergeSpecGo b rest

/-- Claim-side (C6): merge overlapping or touching spans of a sorted list
into single spans. -/
def mergeSpec : List (Nat × Nat) → List (Nat × Nat)
  | [] => []
  | a :: rest => mergeSpecGo a rest

theorem foldl_mergeStep_eq (l : List (Nat × Nat)) :
    ∀ (cur : Nat × Nat) (acc : List (Nat × Nat)),
      (l.foldl mergeStep (cur :: acc)).reverse = acc.reverse ++ mergeSpecGo cur l := by
  induction l with
  | nil =>
    intro cur acc
    simp [mergeSpecGo]
  | cons b rest ih =>
    intro cur acc
    rw [List.foldl_cons]
    by_cases hb : b.1 ≤ cur.2
    · rw [show mergeStep (cur :: acc) b = (cur.1, max cur.2 b.2) :: acc from by
        simp [mergeStep, hb]]
      rw [ih]
      simp [mergeSpecGo, hb]
    · rw [show mergeStep (cur :: acc) b = b :: cur :: acc from by
        simp [mergeStep, hb]]
      rw [ih b (cur :: acc)]
      simp [mergeSpecGo, hb]

/-- The source's merge loop computes the claim-side sorted-span merge. -/
theorem mergeSpans_eq_mergeSpec (ms : List (Nat × Nat)) :
    mergeSpans ms = mergeSpec ms := by
  cases ms with
  | nil => rfl
  | cons a rest =>
    unfold mergeSpans
    rw [List.foldl_cons]
    rw [show mergeStep [] a = [a] from rfl]
    have := foldl_mergeStep_eq rest a []
    simpa [mergeSpec] using this

/-- Claim-side (C6) highlighting exactly as the claim states it: all
case-insensitive occurrences of every word, merged, escaped, wrapped. -/
def specHighlightClaim (text : String) (words : List String) : String :=
  if text.isEmpty || words.isEmpty then escapeHtml text
  else
    renderHighlight text.data 0
      (mergeSpec (sortByStart
        ((words.map (fun word => allOccs text.data word.data)).flatten)))

/-- Claim-side (C6, amended) highlighting: per word only the left-to-right
non-overlapping occurrences (the scan resumes after each match), then the
same merging, escaping and wrapping. -/
def specHighlightAmended (text : String) (words : List String) : String :=
  if text.isEmpty || words.isEmpty then escapeHtml text
  else
    renderHighlight text.data 0
      (mergeSpec (sortByStart
        ((words.map (fun word =>
            if word.data.isEmpty then [] else specOccsFrom text.data word.data 0)).flatten)))

/-- C6 counterexample: the claim says the highlighter finds ALL
case-insensitive occurrences of every word; for the word "aa" in the text
"aaa" the occurrences at 0 and 1 overlap and would merge into one span
covering the whole text, but the source's regex scan resumes after each
match and finds only the occurrence at 0, leaving the final "a"
unhighlighted. -/
theorem applyHighlighting_claim_counterexample :
    applyHighlighting "aaa" ["aa"] = "<span class=\"search-match\">aa</span>a" ∧
    specHighlightClaim "aaa" ["aa"] = "<span class=\"search-match\">aaa</span>" ∧
    applyHighlighting "aaa" ["aa"] ≠ specHighlightClaim "aaa" ["aa"] :=
  ⟨by decide, by decide, by decide⟩

/-- C6 (amended): the highlighting function finds, for each word, its
left-to-right non-overlapping case-insensitive occurrences (the scan resumes
after each match), merges overlapping or touching spans into single spans
(the words "ca" and "at" against "cat" produce one span covering the whole
run), HTML-escapes non-matching segments verbatim, HTML-escapes matched
segments preserving the original case inside a highlight marker; an empty
word list or empty text yields the escaped original, and escaping covers the
characters & < > " and the apostrophe. -/
theorem applyHighlighting_amended_claim :
    (∀ text words, applyHighlighting text words = specHighlightAmended text words) ∧
    (∀ text, applyHighlighting text [] = escapeHtml text) ∧
    (∀ words, applyHighlighting "" words = escapeHtml "") ∧
    applyHighlighting "cat" ["ca", "at"] = "<span class=\"search-match\">cat</span>" ∧
    escapeHtml ("&<>\"" ++ String.singleton (Char.ofNat 39)) =
      "&amp;&lt;&gt;&quot;&#039;" := by
  refine ⟨?_, ?_, ?_, by decide, by decide⟩
  · intro text words
    unfold applyHighlighting specHighlightAmended
    by_cases h : (text.isEmpty || words.isEmpty) = true
    · rw [if_pos h, if_pos h]
    · rw [if_neg h, if_neg h]
      rw [mergeSpans_eq_mergeSpec]
      have hocc : ∀ w : String,
          greedyOccs text.data w.data =
            (if w.data.isEmpty then [] else specOccsFrom text.data w.data 0) := by
        intro w
        unfold greedyOccs
        by_cases hw : w.data.isEmpty = true
        · rw [if_pos hw, if_pos hw]
        · rw [if_neg hw, if_neg hw]
          exact greedyScanF_eq_specOccsFrom text.data w.data
            (text.data.length + 1) 0 (by omega)
      simp only [hocc]
  · intro text
    unfold applyHighlighting
    simp
  · intro words
    have h : ("" : String).isEmpty = true := by decide
    unfold applyHighlighting
    rw [h]
    simp

/-! ### Identifier computation (computeIdentifier, lines 206-242)

`GetTopFuzzyMatch` and the reference-data fetch are external collaborators.
The two fuzzy-match outcomes (client with the default threshold, show with
threshold 2.5) are a parameter `FuzzyOutcomes`; `Except.error` models a
throw.  The returned pair's second component records whether the
reference-data lookup (`computeIdentifierReferenceData`) was performed. -/

/-- Outcomes of the two `GetTopFuzzyMatch` calls of `computeIdentifier`. -/
structure FuzzyOutcomes where
  clientRes : Except Unit String
  showRes : Except Unit String

/-- JavaScript blank test `!showName || !showName.trim()`. -/
def isBlankName : Option String → Bool
  | none => true
  | some s => strTrim s == ""

/-- Model of `computeIdentifier(showName, clientName, year)` (lines 206-242).
`clientName || ''` and `${year || ''}` are `Option.getD _ ""`. -/
def computeIdentifier (fz : FuzzyOutcomes) (showName clientName year : Option String) :
    String × Bool :=
  if isBlankName showName then ("", false)
  else
    let clientMatch :=
      match fz.clientRes with
      | Except.ok m => m
      | Except.error _ => clientName.getD ""
    let showMatch :=
      match fz.showRes with
      | Except.ok m => m
      | Except.error _ => showName.getD ""
    (strTrim (clientMatch ++ " " ++ year.getD "" ++ " " ++ showMatch), true)

/-- Claim-side (C7): a fuzzy-match throw falls back to the raw input string
(empty when the input is absent). -/
def fuzzyOrRaw : Except Unit String → Option String → String
  | Except.ok m, _ => m
  | Except.error _, raw => raw.getD ""

/-- Claim-side (C7): the identifier text `"<clientMatch> <year> <showMatch>"`,
trimmed, with a missing year rendered as an empty segment. -/
def identClaimText (fz : FuzzyOutcomes) (showName clientName year : Option String) :
    String :=
  strTrim (fuzzyOrRaw fz.clientRes clientName ++ " " ++ year.getD "" ++ " " ++
    fuzzyOrRaw fz.showRes showName)

/-- C7: `computeIdentifier` returns the empty string immediately (without the
reference-data lookup) when the show name is blank; otherwise it performs the
lookup and returns `"<clientMatch> <year> <showMatch>"` trimmed, where a
throwing fuzzy match is replaced by the raw input and a missing year renders
as an empty segment (never as "undefined"). -/
theorem computeIdentifier_claim (fz : FuzzyOutcomes)
    (showName clientName year : Option String) :
    (isBlankName showName = true →
      computeIdentifier fz showName clientName year = ("", false)) ∧
    (isBlankName showName = false →
      (computeIdentifier fz showName clientName year).2 = true ∧
      (computeIdentifier fz showName clientName year).1 =
        identClaimText fz showName clientName year) := by
  constructor
  · intro hb
    simp [computeIdentifier, hb]
  · intro hb
    unfold computeIdentifier identClaimText fuzzyOrRaw
    rw [if_neg (by simp [hb])]
    cases fz.clientRes <;> cases fz.showRes <;> exact ⟨rfl, rfl⟩

/-- Fuzzy outcomes where both matches throw, used by witnesses. -/
def fzW : FuzzyOutcomes := ⟨Except.error (), Except.error ()⟩

/-- Witness for C7: with both fuzzy matches throwing and no year, the
identifier for show "SUMMIT" and client "ACME" is "ACME  SUMMIT" (raw inputs,
empty year segment) and the reference lookup was performed. -/
theorem computeIdentifier_claim_witness :
    isBlankName (some "SUMMIT") = false ∧
    (computeIdentifier fzW (some "SUMMIT") (some "ACME") none).1 = "ACME  SUMMIT" ∧
    (computeIdentifier fzW (some "SUMMIT") (some "ACME") none).2 = true := by
  have h := (computeIdentifier_claim fzW (some "SUMMIT") (some "ACME") none).2 (by decide)
  exact ⟨by decide, h.2.trans (by decide), h.1⟩

/-! ### Overlap filter (getOverlappingShows, lines 50-195)

The `searchParams` path delegates to the external `searchFilter` collaborator
and the claims below are about the date-filter path, so the model takes the
(possibly pre-filtered) row list directly.  The per-row `computeIdentifier`
collaborator call of the identifier scan is the parameter `identOf`;
`today` is the `new Date()` of the numeric branch. -/

/-- Filter column: the source compares the strings "Ship", "Return" and
"Show Date"; `other` stands for any other column string, for which
`getRowDate` returns null. -/
inductive Col where
  | ship
  | ret
  | showDate
  | other
deriving DecidableEq

/-- Filter comparison type, the data model's enum {before, after}.  (For any
other string the source's comparison step returns true; the data model's
DateFilter type never produces one.) -/
inductive FType where
  | before
  | after
deriving DecidableEq

/-- A DateFilter value: a day-offset number or a string. -/
inductive FValue where
  | num (n : Int)
  | str (s : String)
deriving DecidableEq

/-- A DateFilter `{column, value, type}`. -/
structure DFilter where
  column : Col
  type : FType
  value : FValue
deriving DecidableEq

/-- Outcome table of the `computeIdentifier` collaborator as called by the
identifier scan: show name, client, year (stringified from the row). -/
abbrev IdentOf := Option String → Option String → Option Int → String

/-- JavaScript truthiness of an optional string field. -/
def truthyStr : Option String → Bool
  | none => false
  | some s => !(s == "")

/-- Model of `getRowDate(row, column)` (lines 75-96). -/
def getRowDate (pd : ParseDate) (row : Row) : Col → Option JDate
  | Col.ship => _calculateShipDate pd row
  | Col.ret => _calculateReturnDate pd row (_calculateShipDate pd row)
  | Col.showDate =>
    match pd row.SStart row.Year with
    | some showDate => some showDate
    | none => (_calculateShipDate pd row).map (fun ship => ship + 10)
  | Col.other => none

/-- The regex test `/^\d{4}-\d{2}-\d{2}$/.test(value)`. -/
def isDateForm (s : String) : Bool :=
  match s.data with
  | [c0, c1, c2, c3, c4, c5, c6, c7, c8, c9] =>
    c0.isDigit && c1.isDigit && c2.isDigit && c3.isDigit &&
      (c4 == Char.ofNat 45) && c5.isDigit && c6.isDigit &&
      (c7 == Char.ofNat 45) && c8.isDigit && c9.isDigit
  | _ => false

/-- Gregorian leap-year test. -/
def isLeapYear (y : Int) : Bool :=
  (y % 4 == 0 && !(y % 100 == 0)) || (y % 400 == 0)

/-- Days in a month. -/
def daysInMonth (y : Int) (m : Nat) : Nat :=
  if m == 2 then (if isLeapYear y then 29 else 28)
  else if m == 4 || m == 6 || m == 9 || m == 11 then 30
  else 31

/-- Model of `new Date(value + 'T00:00:00')` for a string that matched the
date regex: local midnight of that calendar date.  For out-of-range
components (month 00 or > 12, day 00 or beyond the month) JavaScript yields
an Invalid Date; an Invalid Date is truthy but poisons the year range with
NaN and fails every comparison, which produces exactly the same (empty)
results as an unresolvable filter, so it is modelled as `none`. -/
def resolveIsoDate (s : String) : Option JDate :=
  match s.data with
  | [c0, c1, c2, c3, _, c5, c6, _, c8, c9] =>
    let y : Int := Int.ofNat ((c0.toNat - 48) * 1000 + (c1.toNat - 48) * 100 +
      (c2.toNat - 48) * 10 + (c3.toNat - 48))
    let m : Nat := (c5.toNat - 48) * 10 + (c6.toNat - 48)
    let d : Nat := (c8.toNat - 48) * 10 + (c9.toNat - 48)
    if 1 ≤ m ∧ m ≤ 12 ∧ 1 ≤ d ∧ d ≤ daysInMonth y m then some (daysFromCivil y m d)
    else none
  | _ => none

/-- Dispatch of the identifier-resolution branch (lines 122-132): a
{Ship, before} filter resolves to the identifier row's return date, a
{Return, after} filter to its ship date, anything else to the row's own date
for the filter's column. -/
def identRowDate (pd : ParseDate) (f : DFilter) (row : Row) : Option JDate :=
  if f.column = Col.ship ∧ f.type = FType.before then
    _calculateReturnDate pd row (_calculateShipDate pd row)
  else if f.column = Col.ret ∧ f.type = FType.after then
    _calculateShipDate pd row
  else getRowDate pd row f.column

/-- Model of the identifier scan of `resolveFilterValue` (lines 114-138):
walk the rows in order; for each row whose `Show`, `Client` and `Year` are
truthy, compute its identifier; the first row whose identifier equals the
filter value resolves the filter via `identRowDate`; no match resolves to
null. -/
def findIdentDate (pd : ParseDate) (identOf : IdentOf) (f : DFilter) (value : String) :
    List Row → Option JDate
  | [] => none
  | row :: rest =>
    if truthyStr row.Show && truthyStr row.Client && row.Year.isSome then
      if identOf row.Show row.Client row.Year == value then identRowDate pd f row
      else findIdentDate pd identOf f value rest
    else findIdentDate pd identOf f value rest

/-- Model of `resolveFilterValue(filter, data)` (lines 99-141). -/
def resolveFilterValue (pd : ParseDate) (identOf : IdentOf) (today : JDate)
    (data : List Row) (f : DFilter) : Option JDate :=
  match f.value with
  | FValue.num n => some (today + n)
  | FValue.str s =>
    if isDateForm s then resolveIsoDate s
    else findIdentDate pd identOf f s data

/-- Model of one date-filter test of the row filter (lines 170-190): the
row's own date for the filter column and the filter's resolved date must both
be non-null and satisfy the comparison. -/
def passesOneFilter (pd : ParseDate) (row : Row) (f : DFilter) (fd : Option JDate) :
    Bool :=
  match getRowDate pd row f.column with
  | none => false
  | some rowDate =>
    match fd with
    | none => false
    | some filterDate =>
      match f.type with
      | FType.after => decide (rowDate ≥ filterDate)
      | FType.before => decide (rowDate ≤ filterDate)

/-- `Math.min(...l)` of a non-empty list (the empty case is unreachable). -/
def minList (l : List Int) : Int :=
  match l with
  | [] => 0
  | x :: xs => xs.foldl min x

/-- `Math.max(...l)` of a non-empty list (the empty case is unreachable). -/
def maxList (l : List Int) : Int :=
  match l with
  | [] => 0
  | x :: xs => xs.foldl max x

/-- Push `n` consecutive integers starting at `a`. -/
def intRangeGo (a : Int) : Nat → List Int
  | 0 => []
  | n + 1 => a :: intRangeGo (a + 1) n

/-- The `for (let y = minYear; y <= maxYear; y++)` loop building
`yearsToCheck`: the integers from `a` to `b` inclusive. -/
def intRange (a b : Int) : List Int := intRangeGo a (b + 1 - a).toNat

/-- Model of `getOverlappingShows` (lines 50-195) on the date-filter path.
`filterDates[dateFilters.indexOf(filter)]` is modelled with `List.getD` and
structural equality; the source's `indexOf` uses object identity, which
agrees because resolution is a function of the filter value. -/
def getOverlappingShows (pd : ParseDate) (identOf : IdentOf) (today : JDate)
    (data : List Row) (dateFilters : List DFilter) : List Row :=
  if dateFilters.isEmpty then data
  else
    let filterDates := dateFilters.map (resolveFilterValue pd identOf today data)
    let validDates := filterDates.filterMap id
    if validDates.isEmpty then []
    else
      let years := validDates.map getFullYear
      let yearsToCheck := intRange (minList years) (maxList years)
      data.filter (fun row =>
        (match row.Year with
         | none => false
         | some y => yearsToCheck.contains y)
        &&
        dateFilters.all (fun f =>
          passesOneFilter pd row f (filterDates.getD (dateFilters.indexOf f) none)))

/-- JavaScript `String(n).padStart(2, '0')` for the one- or two-digit month
and day numbers. -/
def pad2 (n : Nat) : String :=
  if n < 10 then "0" ++ toString n else toString n

/-- The MM/DD/YYYY formatting of `guessShipDate` (lines 320-323):
`getMonth() + 1` and `getDate()` zero-padded to two digits, `getFullYear()`
unpadded. -/
def formatMMDDYYYY (d : JDate) : String :=
  pad2 (getMonth1 d) ++ "/" ++ pad2 (getDayOfMonth d) ++ "/" ++ toString (getFullYear d)

/-- Model of `guessShipDate(row)` (lines 308-331): an explicitly set
(non-blank) `Ship` field is returned unchanged; otherwise the inferred ship
date is formatted, or null results.  The try/catch wrapper cannot fire in the
pure model. -/
def guessShipDate (pd : ParseDate) (row : Row) : Option String :=
  match row.Ship with
  | some s =>
    if strTrim s ≠ "" then some s
    else (_calculateShipDate pd row).map formatMMDDYYYY
  | none => (_calculateShipDate pd row).map formatMMDDYYYY

/-! ### C3: identifier-based filter resolution -/

/-- Claim-side (C3): identifier resolution exactly as the claim words it —
the rows are scanned for one whose computed identifier equals the value (the
claim states no eligibility condition on the row). -/
def resolveIdentClaim (pd : ParseDate) (identOf : IdentOf) (f : DFilter)
    (value : String) (data : List Row) : Option JDate :=
  match data.find? (fun row => identOf row.Show row.Client row.Year == value) with
  | some row => identRowDate pd f row
  | none => none

/-- Claim-side (C3, amended): only rows whose `Show`, `Client` and `Year` are
all truthy participate in the identifier scan. -/
def resolveIdentAmended (pd : ParseDate) (identOf : IdentOf) (f : DFilter)
    (value : String) (data : List Row) : Option JDate :=
  match data.find? (fun row =>
      truthyStr row.Show && truthyStr row.Client && row.Year.isSome &&
        (identOf row.Show row.Client row.Year == value)) with
  | some row => identRowDate pd f row
  | none => none

theorem findIdentDate_eq_amended (pd : ParseDate) (identOf : IdentOf) (f : DFilter)
    (value : String) :
    ∀ data, findIdentDate pd identOf f value data =
      resolveIdentAmended pd identOf f value data := by
  intro data
  induction data with
  | nil => rfl
  | cons row rest ih =>
    simp only [findIdentDate, resolveIdentAmended]
    by_cases he : (truthyStr row.Show && truthyStr row.Client && row.Year.isSome) = true
    · by_cases hid : (identOf row.Show row.Client row.Year == value) = true
      · rw [if_pos he, if_pos hid, List.find?_cons_of_pos _ (by simp [he, hid])]
      · rw [if_pos he, if_neg hid, List.find?_cons_of_neg _ (by simp [hid])]
        exact ih
    · rw [if_neg he, List.find?_cons_of_neg _ (by
        intro hc
        exact he (by
          rcases Bool.and_eq_true .. |>.mp hc with ⟨h1, _⟩
          exact h1))]
      exact ih

/-- C3 (amended): when a date filter's value is a string not of the form
YYYY-MM-DD, it is treated as an identifier: the rows whose `Show`, `Client`
and `Year` are all set (truthy) are scanned in order for the first whose
computed identifier equals the value; if found, the filter's target date is
that row's computed return date for a {Ship, before} filter, its computed
ship date for a {Return, after} filter, and its own date for the filter's
column in every other combination; with no match the target date is null. -/
theorem resolveFilterValue_ident_amended (pd : ParseDate) (identOf : IdentOf)
    (today : JDate) (data : List Row) (f : DFilter) (s : String)
    (hval : f.value = FValue.str s) (hform : isDateForm s = false) :
    resolveFilterValue pd identOf today data f =
      resolveIdentAmended pd identOf f s data := by
  simp only [resolveFilterValue, hval]
  rw [if_neg (by simp [hform])]
  exact findIdentDate_eq_amended pd identOf f s data

/-- Parse table for the C3 example: only the value "2025-05-01" parses. -/
def pdC3 : ParseDate := fun v _ =>
  if v = some "2025-05-01" then some (daysFromCivil 2025 5 1) else none

/-- Identifier collaborator for the C3 example: the real `computeIdentifier`
with both fuzzy matches throwing and the row's year stringified. -/
def identC3 : IdentOf := fun showName client year =>
  (computeIdentifier fzW showName client (year.map (fun n => toString n))).1

/-- C3 example row: `Show` is missing, so the source's scan skips it, yet its
computed identifier is the empty string. -/
def rowC3 : Row := ⟨none, some "2025-05-01", none, none, some 2025, none, some "C"⟩

/-- C3 example filter: an identifier filter whose value is the empty string. -/
def fC3 : DFilter := ⟨Col.showDate, FType.before, FValue.str ""⟩

/-- C3 counterexample: the claim scans for a row "whose computed identifier
equals the value" with no eligibility condition.  For the empty-string
identifier value, a row with a missing `Show` has computed identifier "" (the
blank-show short-circuit of computeIdentifier), so the claim resolves the
filter to that row's show date — but the source skips every row whose `Show`,
`Client` or `Year` is not truthy and resolves to null. -/
theorem resolveIdent_claim_counterexample :
    fC3.value = FValue.str "" ∧ isDateForm "" = false ∧
    resolveFilterValue pdC3 identC3 0 [rowC3] fC3 = none ∧
    resolveIdentClaim pdC3 identC3 fC3 "" [rowC3] = some (daysFromCivil 2025 5 1) ∧
    resolveFilterValue pdC3 identC3 0 [rowC3] fC3 ≠
      resolveIdentClaim pdC3 identC3 fC3 "" [rowC3] :=
  ⟨rfl, by decide, by decide, by decide, by decide⟩

/-- Witness for the amended C3 theorem at a concrete input. -/
theorem resolveFilterValue_ident_amended_witness :
    fC3.value = FValue.str "" ∧ isDateForm "" = false ∧
    resolveFilterValue pdC3 identC3 0 [rowC3] fC3 =
      resolveIdentAmended pdC3 identC3 fC3 "" [rowC3] :=
  ⟨rfl, by decide,
    resolveFilterValue_ident_amended pdC3 identC3 0 [rowC3] fC3 "" rfl (by decide)⟩

/-! ### C4, C8, C10: the row filter of getOverlappingShows -/

/-- Claim-side (C4): one filter's test as the claim words it — the row's own
date for the filter's column and the filter's resolved date are both non-null
and the comparison holds (row ≥ filter for "after", row ≤ filter for
"before"). -/
def rowPassesClaim (pd : ParseDate) (f : DFilter) (fd : Option JDate) (row : Row) :
    Prop :=
  ∃ rowDate filterDate,
    getRowDate pd row f.column = some rowDate ∧ fd = some filterDate ∧
      (match f.type with
       | FType.after => filterDate ≤ rowDate
       | FType.before => rowDate ≤ filterDate)

/-- Claim-side (C4) row-inclusion predicate: the row's `Year` parses to an
integer inside the inclusive span of years covered by the resolved filter
dates, and every filter passes. -/
def overlapClaimPred (pd : ParseDate) (identOf : IdentOf) (today : JDate)
    (data : List Row) (dateFilters : List DFilter) (row : Row) : Prop :=
  let filterDates := dateFilters.map (resolveFilterValue pd identOf today data)
  let years := (filterDates.filterMap id).map getFullYear
  (∃ y, row.Year = some y ∧ minList years ≤ y ∧ y ≤ maxList years) ∧
  ∀ p ∈ dateFilters.zip filterDates, rowPassesClaim pd p.1 p.2 row

theorem mem_intRangeGo (y : Int) :
    ∀ (n : Nat) (a : Int), y ∈ intRangeGo a n ↔ a ≤ y ∧ y < a + n := by
  intro n
  induction n with
  | zero =>
    intro a
    simp only [intRangeGo, List.not_mem_nil, false_iff]
    omega
  | succ n ih =>
    intro a
    simp only [intRangeGo, List.mem_cons, ih]
    omega

theorem mem_intRange (a b y : Int) : y ∈ intRange a b ↔ a ≤ y ∧ y ≤ b := by
  unfold intRange
  rw [mem_intRangeGo]
  omega

theorem year_match_iff (oy : Option Int) (a b : Int) :
    (match oy with
     | none => false
     | some y => (intRange a b).contains y) = true ↔
      ∃ y, oy = some y ∧ a ≤ y ∧ y ≤ b := by
  cases oy with
  | none => simp
  | some y =>
    simp only [Option.some.injEq]
    constructor
    · intro hy
      have hmem : y ∈ intRange a b := by simpa using hy
      have := (mem_intRange a b y).mp hmem
      exact ⟨y, rfl, this.1, this.2⟩
    · rintro ⟨y2, heq, h1, h2⟩
      cases heq
      simpa using (mem_intRange a b y).mpr ⟨h1, h2⟩

theorem getD_map_indexOf {α β : Type} [DecidableEq α] (g : α → β) (d : β) :
    ∀ (l : List α) (a : α), a ∈ l → (l.map g).getD (l.indexOf a) d = g a := by
  intro l
  induction l with
  | nil =>
    intro a ha
    cases ha
  | cons x xs ih =>
    intro a ha
    by_cases hax : a = x
    · subst hax
      simp [List.indexOf_cons_self]
    · rcases List.mem_cons.mp ha with hh | hh
      · exact absurd hh hax
      · rw [List.map_cons, List.indexOf_cons_ne _ (by
          intro he
          exact hax (by simp_all)), List.getD_cons_succ]
        exact ih a hh

theorem mem_zip_map {α β : Type} (l : List α) (g : α → β) (p : α × β) :
    p ∈ l.zip (l.map g) ↔ p.1 ∈ l ∧ p.2 = g p.1 := by
  induction l with
  | nil => simp
  | cons x xs ih =>
    cases p with
    | mk a b =>
      simp only [List.map_cons, List.zip_cons_cons, List.mem_cons, Prod.mk.injEq, ih]
      constructor
      · rintro (⟨rfl, rfl⟩ | ⟨h1, h2⟩)
        · exact ⟨Or.inl rfl, rfl⟩
        · exact ⟨Or.inr h1, h2⟩
      · rintro ⟨rfl | h1, h2⟩
        · exact Or.inl ⟨rfl, h2⟩
        · exact Or.inr ⟨h1, h2⟩

theorem passesOneFilter_iff (pd : ParseDate) (row : Row) (f : DFilter)
    (fd : Option JDate) :
    passesOneFilter pd row f fd = true ↔ rowPassesClaim pd f fd row := by
  unfold passesOneFilter rowPassesClaim
  cases hr : getRowDate pd row f.column <;> cases fd <;> cases hft : f.type <;>
    simp [ge_iff_le]

theorem all_filters_iff (pd : ParseDate) (row : Row) (dateFilters : List DFilter)
    (g : DFilter → Option JDate) :
    (dateFilters.all (fun f =>
        passesOneFilter pd row f
          ((dateFilters.map g).getD (dateFilters.indexOf f) none))) = true ↔
      ∀ p ∈ dateFilters.zip (dateFilters.map g), rowPassesClaim pd p.1 p.2 row := by
  rw [List.all_eq_true]
  constructor
  · intro hall p hp
    obtain ⟨hmem, heq⟩ := (mem_zip_map _ _ _).mp hp
    have hq := hall p.1 hmem
    rw [getD_map_indexOf g none dateFilters p.1 hmem, ← heq] at hq
    exact (passesOneFilter_iff pd row p.1 p.2).mp hq
  · intro hall f hf
    have hp : (f, g f) ∈ dateFilters.zip (dateFilters.map g) :=
      (mem_zip_map _ _ _).mpr ⟨hf, rfl⟩
    have hq := hall _ hp
    rw [getD_map_indexOf g none dateFilters f hf]
    exact (passesOneFilter_iff pd row f (g f)).mpr hq

/-- C4: with a non-empty list of date filters, a row is in the result of
getOverlappingShows iff it is in the data, its `Year` parses to an integer
within the inclusive span of years covered by the resolved filter dates, and
every filter's comparison holds with both dates non-null (AND over all
filters). -/
theorem getOverlappingShows_mem_iff (pd : ParseDate) (identOf : IdentOf)
    (today : JDate) (data : List Row) (dateFilters : List DFilter) (row : Row)
    (h : dateFilters ≠ []) :
    row ∈ getOverlappingShows pd identOf today data dateFilters ↔
      row ∈ data ∧ overlapClaimPred pd identOf today data dateFilters row := by
  have hne : dateFilters.isEmpty = false := by
    cases dateFilters with
    | nil => exact absurd rfl h
    | cons a l => rfl
  simp only [getOverlappingShows, overlapClaimPred]
  rw [if_neg (by simp [hne])]
  by_cases hv : ((dateFilters.map
      (resolveFilterValue pd identOf today data)).filterMap id).isEmpty = true
  · rw [if_pos hv]
    simp only [List.not_mem_nil, false_iff, not_and]
    intro _hmem _hex hall
    obtain ⟨f0, hf0⟩ : ∃ f0, f0 ∈ dateFilters := by
      cases dateFilters with
      | nil => exact absurd rfl h
      | cons a l => exact ⟨a, List.mem_cons_self a l⟩
    have hpair : (f0, resolveFilterValue pd identOf today data f0) ∈
        dateFilters.zip (dateFilters.map (resolveFilterValue pd identOf today data)) :=
      (mem_zip_map _ _ _).mpr ⟨hf0, rfl⟩
    obtain ⟨rd, fdd, _, hfd, _⟩ := hall _ hpair
    have hnil : (dateFilters.map
        (resolveFilterValue pd identOf today data)).filterMap id = [] := by
      simpa [List.isEmpty_iff] using hv
    have hnone := List.filterMap_eq_nil_iff.mp hnil
      (resolveFilterValue pd identOf today data f0)
      (List.mem_map.mpr ⟨f0, hf0, rfl⟩)
    have hfd2 : resolveFilterValue pd identOf today data f0 = some fdd := hfd
    have hnone2 : resolveFilterValue pd identOf today data f0 = none := hnone
    rw [hnone2] at hfd2
    exact Option.noConfusion hfd2
  · rw [if_neg hv]
    rw [List.mem_filter]
    apply and_congr_right
    intro _
    rw [Bool.and_eq_true]
    exact and_congr (year_match_iff row.Year _ _) (all_filters_iff pd row dateFilters _)

/-- Parse table with no parseable field. -/
def pdNone : ParseDate := fun _ _ => none

/-- Identifier collaborator returning the empty identifier. -/
def identNone : IdentOf := fun _ _ _ => ""

/-- Parse table for the C4 witness: the `Ship` value "SHIP" is 2025-06-15. -/
def pdW4 : ParseDate := fun v _ =>
  if v = some "SHIP" then some (daysFromCivil 2025 6 15) else none

/-- C4 witness row: explicit ship date and year 2025. -/
def rowW4 : Row := ⟨some "SHIP", none, none, none, some 2025, none, none⟩

/-- C4 witness filter: ship after today+0. -/
def fW4 : DFilter := ⟨Col.ship, FType.after, FValue.num 0⟩

/-- Witness for C4: with today = 2025-06-01 and a {Ship, after, +0} filter, a
row shipping 2025-06-15 in year 2025 is in the result. -/
theorem getOverlappingShows_mem_iff_witness :
    rowW4 ∈ getOverlappingShows pdW4 identNone (daysFromCivil 2025 6 1)
      [rowW4] [fW4] := by
  refine (getOverlappingShows_mem_iff pdW4 identNone (daysFromCivil 2025 6 1)
    [rowW4] [fW4] rowW4 (by simp)).mpr ?_
  refine ⟨by simp, ⟨2025, rfl, by decide, by decide⟩, ?_⟩
  intro p hp
  have : p = (fW4, resolveFilterValue pdW4 identNone (daysFromCivil 2025 6 1)
      [rowW4] fW4) := by
    simpa using hp
  subst this
  exact ⟨daysFromCivil 2025 6 15, daysFromCivil 2025 6 1, by decide, by decide,
    show daysFromCivil 2025 6 1 ≤ daysFromCivil 2025 6 15 by decide⟩

/-- C8: with a non-empty list of date filters none of which resolves to a
date, getOverlappingShows returns the empty array. -/
theorem getOverlappingShows_unresolved (pd : ParseDate) (identOf : IdentOf)
    (today : JDate) (data : List Row) (dateFilters : List DFilter)
    (h : dateFilters ≠ [])
    (hall : ∀ f ∈ dateFilters, resolveFilterValue pd identOf today data f = none) :
    getOverlappingShows pd identOf today data dateFilters = [] := by
  have hne : dateFilters.isEmpty = false := by
    cases dateFilters with
    | nil => exact absurd rfl h
    | cons a l => rfl
  have hv : ((dateFilters.map
      (resolveFilterValue pd identOf today data)).filterMap id).isEmpty = true := by
    rw [List.isEmpty_iff]
    rw [List.filterMap_eq_nil_iff]
    intro x hx
    obtain ⟨f, hf, rfl⟩ := List.mem_map.mp hx
    exact hall f hf
  simp only [getOverlappingShows]
  rw [if_neg (by simp [hne]), if_pos hv]

/-- C8 witness filter: an identifier filter that matches no row. -/
def fW8 : DFilter := ⟨Col.other, FType.before, FValue.str "mystery"⟩

/-- Witness for C8 at a concrete unresolvable filter. -/
theorem getOverlappingShows_unresolved_witness :
    getOverlappingShows pdNone identNone 0 [] [fW8] = [] :=
  getOverlappingShows_unresolved pdNone identNone 0 [] [fW8] (by simp)
    (by
      intro f hf
      rw [List.mem_singleton] at hf
      subst hf
      decide)

/-- C10: with a non-empty list of date filters at least one of which
resolves, every row whose `Year` is missing, empty or non-integer (`none` in
the model) is excluded from the result. -/
theorem yearless_row_excluded (pd : ParseDate) (identOf : IdentOf) (today : JDate)
    (data : List Row) (dateFilters : List DFilter) (row : Row)
    (h : dateFilters ≠ [])
    (_hres : ∃ f ∈ dateFilters, resolveFilterValue pd identOf today data f ≠ none)
    (hy : row.Year = none) :
    row ∉ getOverlappingShows pd identOf today data dateFilters := by
  intro hmem
  have hne : dateFilters.isEmpty = false := by
    cases dateFilters with
    | nil => exact absurd rfl h
    | cons a l => rfl
  simp only [getOverlappingShows] at hmem
  rw [if_neg (by simp [hne])] at hmem
  by_cases hv : ((dateFilters.map
      (resolveFilterValue pd identOf today data)).filterMap id).isEmpty = true
  · rw [if_pos hv] at hmem
    exact absurd hmem (List.not_mem_nil row)
  · rw [if_neg hv] at hmem
    rw [List.mem_filter] at hmem
    have hcond := hmem.2
    simp [hy] at hcond

/-- C10 witness row with no `Year`. -/
def rowW10 : Row := ⟨none, none, none, none, none, none, none⟩

/-- C10 witness filter: resolves to today+0. -/
def fW10 : DFilter := ⟨Col.ship, FType.after, FValue.num 0⟩

/-- Witness for C10 at a concrete yearless row and resolvable filter. -/
theorem yearless_row_excluded_witness :
    rowW10 ∉ getOverlappingShows pdNone identNone 0 [rowW10] [fW10] :=
  yearless_row_excluded pdNone identNone 0 [rowW10] [fW10] rowW10 (by simp)
    ⟨fW10, by simp, by decide⟩ rfl

/-! ### C9: guessShipDate -/

/-- The `Ship` field is blank: missing, or whitespace only. -/
def shipBlank (row : Row) : Prop :=
  row.Ship = none ∨ ∃ s, row.Ship = some s ∧ strTrim s = ""

/-- C9: if `Ship` is explicitly set (non-blank), guessShipDate returns it
unchanged, byte for byte; otherwise it returns the inferred ship date
formatted as MM/DD/YYYY with zero-padded month and day, or null when no ship
date is inferable. -/
theorem guessShipDate_claim (pd : ParseDate) (row : Row) :
    (∀ s, row.Ship = some s → strTrim s ≠ "" → guessShipDate pd row = some s) ∧
    (shipBlank row →
      guessShipDate pd row = (_calculateShipDate pd row).map formatMMDDYYYY) := by
  constructor
  · intro s hs hne
    simp [guessShipDate, hs, hne]
  · intro hb
    rcases hb with hn | ⟨s, hs, hblank⟩
    · simp [guessShipDate, hn]
    · simp [guessShipDate, hs, hblank]

/-- C9 witness row with an explicitly set ship date string. -/
def rowW9 : Row := ⟨some "05/03/2025", none, none, none, none, none, none⟩

/-- Witness for C9: the explicit `Ship` value is returned unchanged. -/
theorem guessShipDate_claim_witness :
    strTrim "05/03/2025" ≠ "" ∧ guessShipDate pdNone rowW9 = some "05/03/2025" :=
  ⟨by decide, (guessShipDate_claim pdNone rowW9).1 "05/03/2025" rfl (by decide)⟩

end Manage
